import Mathlib

/-!
# fisx: the configuration reader and the photoelectric vacancy distribution

A shallow embedding of `XRFConfig::readConfigurationFromFile`
(`src/fisx_xrfconfig.cpp`) and of the two overloads of
`Element::getInitialPhotoelectricVacancyDistribution` declared in
`src/fisx_element.h`.

Conventions of the embedding:

* a C++ `double` is a rational number: the configuration reader only compares
  doubles with the constants `0.0` and `-666.0`, and the vacancy distribution
  only divides two of them;
* a C++ `int` is an `Int` (no arithmetic is done on them, only comparisons and
  the store of the constant `0`);
* a `std::vector<T>` is a `List T`, a `std::map<std::string, T>` is an
  association list in key order;
* indexing a vector past its end is undefined behaviour in the source and is
  made explicit as `Failure.undefinedBehaviour`;
* text written to `std::cout` is not modelled.
-/

namespace Fisx

/-! ## Data model of the configuration reader -/

/-- How a run of the embedded code can stop without returning. -/
inductive Failure where
  /-- The statement `throw std::invalid_argument(what)`. -/
  | invalidArgument (what : String)
  /-- An access `v[i]` or `v.erase(v.begin() + i)` with `i` not below `v.size()`. -/
  | undefinedBehaviour
  deriving DecidableEq

/-- The four constructor arguments of `Layer(name, density, thickness, funnyFactor)`,
in the order in which the reader passes them. The class itself is declared
outside the two embedded files. -/
structure Layer where
  name : String
  density : ℚ
  thickness : ℚ
  funnyFactor : ℚ
  deriving DecidableEq

/-- The arguments of one call `setBeam(energy, weight, characteristic)`.
The fourth argument of `XRFConfig::setBeam` is left to its default. -/
structure BeamCall where
  energy : List ℚ
  weight : List ℚ
  characteristic : List Int
  deriving DecidableEq

/-- The members of `XRFConfig` that `readConfigurationFromFile` touches.
The `Beam` member is represented by the calls made to `setBeam`, oldest first. -/
structure XRFConfig where
  alphaIn : ℚ
  alphaOut : ℚ
  scatteringAngle : ℚ
  beamCalls : List BeamCall
  beamFilters : List Layer
  attenuators : List Layer
  sample : List Layer
  deriving DecidableEq

/-- Embedding of `XRFConfig::setGeometry`. -/
def XRFConfig.setGeometry (cfg : XRFConfig) (alphaIn alphaOut scatteringAngle : ℚ) :
    XRFConfig :=
  { cfg with alphaIn := alphaIn, alphaOut := alphaOut, scatteringAngle := scatteringAngle }

/-- Embedding of `XRFConfig::setBeam`: the call is forwarded to the beam. -/
def XRFConfig.setBeam (cfg : XRFConfig) (energy weight : List ℚ)
    (characteristic : List Int) : XRFConfig :=
  { cfg with beamCalls := cfg.beamCalls ++ [⟨energy, weight, characteristic⟩] }

/-- Embedding of the constructor `XRFConfig::XRFConfig()`. -/
def XRFConfig.new : XRFConfig :=
  XRFConfig.setGeometry ⟨0, 0, 0, [], [], [], []⟩ 45 45 90

/-- The interface of `SimpleIni` used by the reader (`fisx_simpleini.h` is not one
of the embedded files, so the INI reader is a parameter): `readSection(name, flag)`
gives the key/value strings of a section, and the three overloads of
`parseStringAsMultipleValues(content, result, fill)` give the vector that
`result` holds after the call, whatever it held before. -/
structure SimpleIni where
  readSection : String → Bool → List (String × String)
  parseDoubles : String → ℚ → List ℚ
  parseInts : String → Int → List Int
  parseStrings : String → String → List String

/-- The expression `sectionContents[key]` of a `std::map<std::string, std::string>`:
a key that is absent gives the empty string. -/
def mapAt (sectionContents : List (String × String)) (key : String) : String :=
  (sectionContents.lookup key).getD ""

/-- The expression `v[i]` of a `std::vector`; `none` when `i` is not below
`v.size()`, where the source has undefined behaviour. -/
def vecAt {α : Type} (v : List α) (i : Nat) : Option α :=
  v[i]?

/-- The statement `v.erase(v.begin() + i)`; `none` when `i` is not below
`v.size()`, where the source has undefined behaviour. -/
def vecErase {α : Type} (v : List α) (i : Nat) : Option (List α) :=
  if i < v.length then some (v.eraseIdx i) else none

/-- The statements `if (v.size() == 0) { v.resize(n); std::fill(v.begin(), v.end(), x); }`
of lines 87 to 101. -/
def fillIfEmpty {α : Type} (v : List α) (n : Nat) (x : α) : List α :=
  if v.length = 0 then List.replicate n x else v

/-- The local variables of the beam loop: `mapDoubles["energy"]`,
`mapDoubles["weight"]`, `intVector`, `flagVector` and `counter`. -/
structure BeamVectors where
  energy : List ℚ
  weight : List ℚ
  intVector : List Int
  flagVector : List Int
  counter : Nat
  deriving DecidableEq

/-- The loop `while (iIntVector > 0)` of lines 105 to 133, started with
`iIntVector` equal to the first argument. -/
def beamLoop : Nat → BeamVectors → Except Failure BeamVectors
  | 0, v => .ok v
  | i + 1, v =>
    match vecAt v.flagVector i with
    | none => .error .undefinedBehaviour
    | some flag =>
      match (if 0 < flag then (vecAt v.energy i).map (fun e => decide (e ≠ -666))
             else some false) with
      | none => .error .undefinedBehaviour
      | some true =>
        match vecAt v.energy i with
        | none => .error .undefinedBehaviour
        | some e =>
          if e ≤ 0 then
            .error (.invalidArgument "Negative excitation beam photon energy")
          else
            match vecAt v.weight i with
            | none => .error .undefinedBehaviour
            | some w =>
              if w ≤ 0 then
                .error (.invalidArgument "Negative excitation beam photon weight")
              else
                match vecAt v.intVector i with
                | none => .error .undefinedBehaviour
                | some c =>
                  beamLoop i
                    { v with
                      intVector := if c < 0 then v.intVector.set i 0 else v.intVector
                      counter := v.counter + 1 }
      | some false =>
        match vecErase v.energy i, vecErase v.weight i, vecErase v.intVector i with
        | some energy, some weight, some intVector =>
          beamLoop i { v with energy := energy, weight := weight, intVector := intVector }
        | _, _, _ => .error .undefinedBehaviour

/-- How a call of `readConfigurationFromFile` ends, with the state of the
object at that moment. -/
inductive Outcome where
  | returned (cfg : XRFConfig)
  | threw (what : String) (cfg : XRFConfig)
  | undefinedBehaviour
  deriving DecidableEq

/-- Lines 87 to 134: the defaults for empty vectors, the beam loop and the call
of `setBeam`, from the four parsed vectors. -/
def beamStage (cfg : XRFConfig) (energy weight : List ℚ) (intVector flagVector : List Int) :
    Outcome :=
  let weight := fillIfEmpty weight energy.length 1
  let intVector := fillIfEmpty intVector energy.length 1
  let flagVector := fillIfEmpty flagVector energy.length 1
  match beamLoop flagVector.length ⟨energy, weight, intVector, flagVector, 0⟩ with
  | .error (.invalidArgument what) => .threw what cfg
  | .error .undefinedBehaviour => .undefinedBehaviour
  | .ok v => .returned (cfg.setBeam v.energy v.weight v.intVector)

/-- The expression `key.substr(0, n)`: the first `n` characters of the key, or the
whole key when it is shorter. The keys of a configuration file are ASCII, where
characters and bytes agree. -/
def substr0 (key : String) (n : Nat) : String :=
  ⟨key.data.take n⟩

/-- The expression `Layer(stringVector[1], doubleVector[2], doubleVector[3], doubleVector[4])`. -/
def mkLayer (stringVector : List String) (doubleVector : List ℚ) : Option Layer :=
  match vecAt stringVector 1, vecAt doubleVector 2, vecAt doubleVector 3,
      vecAt doubleVector 4 with
  | some s, some a, some b, some c => some ⟨s, a, b, c⟩
  | _, _, _, _ => none

/-- The body of the loop over the "attenuators" section, lines 151 to 203, for one
entry `key = content`; `none` when a vector is indexed past its end. -/
def attenuatorEntry (iniFile : SimpleIni) (cfg : XRFConfig) (key content : String) :
    Option XRFConfig :=
  let doubleVector := iniFile.parseDoubles content (-1)
  let stringVector := iniFile.parseStrings content ""
  if doubleVector.length = 0 then some cfg
  else
    match vecAt doubleVector 0 with
    | none => none
    | some d0 =>
      if 0 < d0 then
        if substr0 key 9 = "BeamFilter" then
          (mkLayer stringVector doubleVector).map
            (fun layer => { cfg with beamFilters := cfg.beamFilters ++ [layer] })
        else if stringVector.length = 8 then
          match vecAt doubleVector 5, vecAt doubleVector 6, vecAt doubleVector 7,
              vecAt stringVector 1 with
          | some a, some b, some c, some s1 =>
            let cfg := cfg.setGeometry a b c
            if s1 = "MULTILAYER" then some cfg
            else
              (mkLayer stringVector doubleVector).map
                (fun layer => { cfg with sample := cfg.sample ++ [layer] })
          | _, _, _, _ => none
        else
          match vecAt stringVector 1 with
          | none => none
          | some s1 =>
            if s1 = "Detector" then some cfg
            else
              (mkLayer stringVector doubleVector).map
                (fun layer => { cfg with attenuators := cfg.attenuators ++ [layer] })
      else some cfg

/-- The loop of lines 147 to 204 over the entries of the section, in key order. -/
def attenuatorLoop (iniFile : SimpleIni) :
    List (String × String) → XRFConfig → Option XRFConfig
  | [], cfg => some cfg
  | (key, content) :: rest, cfg =>
    match attenuatorEntry iniFile cfg key content with
    | none => none
    | some cfg1 => attenuatorLoop iniFile rest cfg1

/-- Lines 138 to 204: the three layer lists are cleared and filled from the
"attenuators" section. -/
def attenuatorStage (iniFile : SimpleIni) (cfg : XRFConfig) : Outcome :=
  let sectionContents := iniFile.readSection "attenuators" false
  match attenuatorLoop iniFile sectionContents
      { cfg with beamFilters := [], attenuators := [], sample := [] } with
  | some cfg1 => .returned cfg1
  | none => .undefinedBehaviour

/-- Lines 69 to 204: what the reader does once `sectionContents` holds the
section with the beam description. -/
def readPyMcaConfiguration (cfg : XRFConfig) (iniFile : SimpleIni)
    (sectionContents : List (String × String)) : Outcome :=
  let energy := iniFile.parseDoubles (mapAt sectionContents "energy") (-666)
  let weight := iniFile.parseDoubles (mapAt sectionContents "energyweight") (-1)
  let intVector := iniFile.parseInts (mapAt sectionContents "energyscatter") (-1)
  let flagVector := iniFile.parseInts (mapAt sectionContents "energyflag") 0
  match beamStage cfg energy weight intVector flagVector with
  | .returned cfg1 => attenuatorStage iniFile cfg1
  | o => o

/-- Embedding of `XRFConfig::readConfigurationFromFile`, from the content of the
file as `SimpleIni` gives it. -/
def readConfigurationFromFile (cfg : XRFConfig) (iniFile : SimpleIni) : Outcome :=
  let fisxFile := decide ((iniFile.readSection "fisx" false).length ≠ 0)
  if fisxFile then .returned cfg
  else
    let sectionContents := iniFile.readSection "fit" false
    if sectionContents.length = 0 then
      let sectionContents := iniFile.readSection "result.config" false
      if sectionContents.length = 0 then
        .threw "File not recognized as a fisx or PyMca configuration file." cfg
      else readPyMcaConfiguration cfg iniFile sectionContents
    else readPyMcaConfiguration cfg iniFile sectionContents

/-! ## Reference description of the beam selection -/

/-- Index `i` is considered by the beam loop: `flagVector[i] > 0` and
`energy[i] != -666.0`. -/
def considered (energy : List ℚ) (flagVector : List Int) (i : Nat) : Bool :=
  decide (0 < flagVector.getD i 0) && decide (energy.getD i 0 ≠ -666)

/-- The considered indices, in increasing order. -/
def keptIndices (energy : List ℚ) (flagVector : List Int) : List Nat :=
  (List.range flagVector.length).filter (considered energy flagVector)

/-- Index `i` is considered and rejected: its energy or its weight is not positive. -/
def rejected (energy weight : List ℚ) (flagVector : List Int) (i : Nat) : Bool :=
  considered energy flagVector i &&
    (decide (energy.getD i 0 ≤ 0) || decide (weight.getD i 0 ≤ 0))

/-- One slot of the four parallel vectors, used to reason about the loop. -/
structure Slot where
  energy : ℚ
  weight : ℚ
  scatter : Int
  flag : Int
  deriving DecidableEq

/-- The loop considers the slot. -/
def Slot.considered (t : Slot) : Bool :=
  decide (0 < t.flag) && decide (t.energy ≠ -666)

/-- The loop throws at the slot. -/
def Slot.rejected (t : Slot) : Bool :=
  t.considered && (decide (t.energy ≤ 0) || decide (t.weight ≤ 0))

/-- The characteristic value the loop leaves in a considered slot. -/
def clampScatter (c : Int) : Int :=
  if c < 0 then 0 else c

/-- The slot at index `i` of four parallel vectors. -/
def slotAt (energy weight : List ℚ) (intVector flagVector : List Int) (i : Nat) : Slot :=
  ⟨energy.getD i 0, weight.getD i 0, intVector.getD i 0, flagVector.getD i 0⟩

/-- The slots of four parallel vectors of length `n`. -/
def slots (energy weight : List ℚ) (intVector flagVector : List Int) (n : Nat) : List Slot :=
  (List.range n).map (slotAt energy weight intVector flagVector)

/-! ## Example files -/

/-- An INI file given by its tables: the sections with their key/value strings,
and for every value string the fields `parseStringAsMultipleValues` reads from it,
`none` marking a field that is replaced by the fill value. -/
def tabulatedIni (sections : List (String × List (String × String)))
    (doubles : List (String × List (Option ℚ))) (ints : List (String × List (Option Int)))
    (strings : List (String × List (Option String))) : SimpleIni where
  readSection name _ := (sections.lookup name).getD []
  parseDoubles content fill := ((doubles.lookup content).getD []).map (fun x => x.getD fill)
  parseInts content fill := ((ints.lookup content).getD []).map (fun x => x.getD fill)
  parseStrings content fill := ((strings.lookup content).getD []).map (fun x => x.getD fill)

/-- A file without any section. -/
def emptyFile : SimpleIni :=
  tabulatedIni [] [] [] []

/-- A file with a "fisx" section. -/
def fisxFile : SimpleIni :=
  tabulatedIni [("fisx", [("version", "1")])] [] [] []

/-- A PyMca file with one beam energy and one enabled beam filter:
`[fit] energy = 10.0` and `[attenuators] BeamFilter0 = 1, Al, 2.7, 0.1, 1.0`. -/
def beamFilterFile : SimpleIni :=
  tabulatedIni
    [("fit", [("energy", "10.0")]),
      ("attenuators", [("BeamFilter0", "1, Al, 2.7, 0.1, 1.0")])]
    [("10.0", [some 10]),
      ("1, Al, 2.7, 0.1, 1.0", [some 1, none, some (27 / 10), some (1 / 10), some 1])]
    []
    [("1, Al, 2.7, 0.1, 1.0", [some "1", some "Al", some "2.7", some "0.1", some "1.0"])]

/-! ## The vacancy distribution of an element

`src/fisx_element.h` declares the class `Element`; the bodies of its member
functions are not among the embedded files, so the two overloads of
`getInitialPhotoelectricVacancyDistribution` and the queries they use are
modelled from sections 3, 4.2, 4.3, 4.4 and 7 of the specification. -/

/-- Modelled from the spec: the error kinds of section 7, which the header does
not declare. -/
inductive FisxError where
  | outOfRange
  | domainError
  | inconsistentTable
  | noPhotoelectricData
  | unknownShell
  deriving DecidableEq

/-- Modelled from the spec: the type of the interpolation utility of section 4.1,
`interpolateLogLog(table, values, x)`, with its failures. Its body is missing and
logarithms are not rational, so the utility is a parameter of the model. -/
abbrev Interpolation : Type :=
  List ℚ → List ℚ → ℚ → Except FisxError ℚ

/-- The tables of an `Element` used by the vacancy distribution, with the names
of the private members of the class: the energies and the columns of the
attenuation table, and per shell the energies and the values of the partial
photoelectric table. -/
structure Element where
  muEnergy : List ℚ
  mu : List (String × List ℚ)
  muPartialPhotoelectricEnergy : List (String × List ℚ)
  muPartialPhotoelectricValue : List (String × List ℚ)
  deriving DecidableEq

/-- Modelled from the spec: the body of `Element::getMassAttenuationCoefficients(energy)`
is missing; section 4.2 has the query interpolate every column of the attenuation
table at `energy`, and this is its "photoelectric" column, the total photoelectric
coefficient. -/
def Element.getPhotoelectricMassAttenuationCoefficient (interp : Interpolation)
    (el : Element) (energy : ℚ) : Except FisxError ℚ :=
  interp el.muEnergy ((el.mu.lookup "photoelectric").getD []) energy

/-- Modelled from the spec: the query of section 4.3 over the shells of a list of
sub-tables, the loop of the missing body of
`Element::getPartialPhotoelectricMassAttenuationCoefficients(energy)`: every
shell is interpolated in its own sub-table, and a failure is reported. -/
def partialPhotoelectricAt (interp : Interpolation) (values : List (String × List ℚ))
    (energy : ℚ) : List (String × List ℚ) → Except FisxError (List (String × ℚ))
  | [] => .ok []
  | (shell, energies) :: rest =>
    match interp energies ((values.lookup shell).getD []) energy with
    | .error err => .error err
    | .ok v =>
      match partialPhotoelectricAt interp values energy rest with
      | .error err => .error err
      | .ok r => .ok ((shell, v) :: r)

/-- Modelled from the spec: the body of
`Element::getPartialPhotoelectricMassAttenuationCoefficients(energy)` is missing;
section 4.3 has it return the interpolated value of every shell that has a
sub-table, shells without one being absent from the result, and section 7 has a
failure of the interpolation reported to the caller. -/
def Element.getPartialPhotoelectricMassAttenuationCoefficients (interp : Interpolation)
    (el : Element) (energy : ℚ) : Except FisxError (List (String × ℚ)) :=
  partialPhotoelectricAt interp el.muPartialPhotoelectricValue energy
    el.muPartialPhotoelectricEnergy

/-- Modelled from the spec: the body of the scalar overload of
`Element::getInitialPhotoelectricVacancyDistribution` is missing; section 4.4 has
it query the total photoelectric coefficient and the per-shell coefficients at
`energy`, fail with NoPhotoelectricData when the total is zero or there is no
per-shell data, and return `partial / total` for every shell otherwise. -/
def Element.getInitialPhotoelectricVacancyDistribution (interp : Interpolation)
    (el : Element) (energy : ℚ) : Except FisxError (List (String × ℚ)) :=
  match el.getPhotoelectricMassAttenuationCoefficient interp energy with
  | .error err => .error err
  | .ok total =>
    match el.getPartialPhotoelectricMassAttenuationCoefficients interp energy with
    | .error err => .error err
    | .ok parts =>
      if total = 0 ∨ parts = [] then .error .noPhotoelectricData
      else .ok (parts.map (fun p => (p.1, p.2 / total)))

/-- Modelled from the spec: the loop of the missing body of the vector overload,
the scalar form applied to every energy of the list, in order (section 4.4); a
failure at one energy is reported (section 7). -/
def vacancyRows (interp : Interpolation) (el : Element) :
    List ℚ → Except FisxError (List (List (String × ℚ)))
  | [] => .ok []
  | energy :: rest =>
    match el.getInitialPhotoelectricVacancyDistribution interp energy with
    | .error err => .error err
    | .ok row =>
      match vacancyRows interp el rest with
      | .error err => .error err
      | .ok rows => .ok (row :: rows)

/-- Modelled from the spec: the body of the vector overload of
`Element::getInitialPhotoelectricVacancyDistribution` is missing; section 4.4 has
it apply the scalar form independently per energy, and section 3 has the result
map every shell to the sequence of its values, in the order of the energies.
Lean has no overloading, hence the longer name. -/
def Element.getInitialPhotoelectricVacancyDistributionOfEnergies (interp : Interpolation)
    (el : Element) (energies : List ℚ) : Except FisxError (List (String × List ℚ)) :=
  match vacancyRows interp el energies with
  | .error err => .error err
  | .ok rows =>
    .ok (el.muPartialPhotoelectricEnergy.map
      (fun p => (p.1, rows.filterMap (fun row => row.lookup p.1))))

/-- An interpolation utility for queries at stored samples: the value stored with
the first sample equal to `x` (section 4.1: at a sample the stored value is
returned), and OutOfRange for any other `x`. -/
def sampleLookup : Interpolation
  | e :: es, v :: vs, x => if x = e then .ok v else sampleLookup es vs x
  | _, _, _ => .error .outOfRange

/-- The element of the scenario of section 8: at 12 keV the total photoelectric
coefficient is 10 and the partial coefficient of the K shell is 8. -/
def scenarioElement : Element :=
  ⟨[12, 20], [("photoelectric", [10, 4])], [("K", [12, 20])], [("K", [8, 3])]⟩

/-- An element with an attenuation table and no partial photoelectric table. -/
def undecomposedElement : Element :=
  ⟨[12, 20], [("photoelectric", [10, 4])], [], []⟩

/-- An element whose total photoelectric coefficient is stored as zero at 12 keV. -/
def transparentElement : Element :=
  ⟨[12, 20], [("photoelectric", [0, 4])], [("K", [12, 20])], [("K", [0, 3])]⟩

/-! ## Properties of the beam loop -/

theorem vecAt_mid {α : Type} (a : List α) (x : α) (s : List α) (n : Nat)
    (h : a.length = n) : vecAt (a ++ x :: s) n = some x := by
  subst h
  have : (a ++ x :: s)[a.length]? = some x := by
    induction a with
    | nil => simp
    | cons b a ih => simpa using ih
  simp [vecAt, this]

theorem vecErase_mid {α : Type} (a : List α) (x : α) (s : List α) (n : Nat)
    (h : a.length = n) : vecErase (a ++ x :: s) n = some (a ++ s) := by
  subst h
  simp [vecErase, List.eraseIdx_append_of_length_le]

theorem set_mid {α : Type} (a : List α) (x y : α) (s : List α) (n : Nat)
    (h : a.length = n) : (a ++ x :: s).set n y = a ++ y :: s := by
  subst h
  simp [List.set_append]

/-- One step of the loop on the last slot of the not yet visited part. -/
theorem beamLoop_step (p : List Slot) (t : Slot) (se sw : List ℚ) (sc sf : List Int)
    (cnt : Nat) :
    beamLoop (p ++ [t]).length
        ⟨(p ++ [t]).map Slot.energy ++ se, (p ++ [t]).map Slot.weight ++ sw,
          (p ++ [t]).map Slot.scatter ++ sc, (p ++ [t]).map Slot.flag ++ sf, cnt⟩ =
      if t.considered then
        if t.energy ≤ 0 then
          .error (.invalidArgument "Negative excitation beam photon energy")
        else if t.weight ≤ 0 then
          .error (.invalidArgument "Negative excitation beam photon weight")
        else
          beamLoop p.length
            ⟨p.map Slot.energy ++ t.energy :: se, p.map Slot.weight ++ t.weight :: sw,
              p.map Slot.scatter ++ clampScatter t.scatter :: sc,
              p.map Slot.flag ++ t.flag :: sf, cnt + 1⟩
      else
        beamLoop p.length
          ⟨p.map Slot.energy ++ se, p.map Slot.weight ++ sw, p.map Slot.scatter ++ sc,
            p.map Slot.flag ++ t.flag :: sf, cnt⟩ := by
  have hl : (p ++ [t]).length = p.length + 1 := by simp
  rw [hl]
  simp only [List.map_append, List.map_cons, List.map_nil, List.append_assoc,
    List.singleton_append]
  rw [beamLoop]
  simp only [vecAt_mid _ _ _ _ (List.length_map p _), vecErase_mid _ _ _ _ (List.length_map p _),
    set_mid _ _ _ _ _ (List.length_map p _)]
  by_cases hf : 0 < t.flag
  · by_cases he : t.energy = -666
    · simp [Slot.considered, hf, he, Option.map]
    · by_cases h1 : t.energy ≤ 0
      · simp [Slot.considered, hf, he, Option.map, h1]
      · by_cases h2 : t.weight ≤ 0
        · simp [Slot.considered, hf, he, Option.map, h1, h2]
        · by_cases h3 : t.scatter < 0
          · simp [Slot.considered, hf, he, Option.map, h1, h2, h3, clampScatter]
          · simp [Slot.considered, hf, he, Option.map, h1, h2, h3, clampScatter]
  · simp [Slot.considered, hf]

/-- Without a rejected slot the loop ends and leaves the considered slots, in order. -/
theorem beamLoop_ok (p : List Slot) (hp : ∀ t ∈ p, t.rejected = false) :
    ∀ (se sw : List ℚ) (sc sf : List Int) (cnt : Nat),
      beamLoop p.length
          ⟨p.map Slot.energy ++ se, p.map Slot.weight ++ sw, p.map Slot.scatter ++ sc,
            p.map Slot.flag ++ sf, cnt⟩ =
        .ok ⟨(p.filter Slot.considered).map Slot.energy ++ se,
          (p.filter Slot.considered).map Slot.weight ++ sw,
          (p.filter Slot.considered).map (fun t => clampScatter t.scatter) ++ sc,
          p.map Slot.flag ++ sf, cnt + (p.filter Slot.considered).length⟩ := by
  induction p using List.reverseRecOn with
  | nil => intro se sw sc sf cnt; simp [beamLoop]
  | append_singleton p t ih =>
    intro se sw sc sf cnt
    have ht : t.rejected = false := hp t (by simp)
    have hp1 : ∀ u ∈ p, u.rejected = false := fun u hu => hp u (by simp [hu])
    rw [beamLoop_step]
    by_cases hc : t.considered = true
    · simp only [Slot.rejected, hc, Bool.true_and, Bool.or_eq_false_iff,
        decide_eq_false_iff_not] at ht
      simp only [hc, if_true, if_neg ht.1, if_neg ht.2]
      rw [ih hp1]
      simp only [List.filter_append, List.filter_cons, hc, if_true, List.filter_nil,
        List.map_append, List.map_cons, List.map_nil, List.append_assoc, List.singleton_append,
        List.length_append, List.length_singleton]
      congr 2
      omega
    · simp only [hc, Bool.false_eq_true, if_false]
      rw [ih hp1]
      simp [List.filter_append, hc, List.filter_cons]

/-- With a rejected slot the loop throws `std::invalid_argument`. -/
theorem beamLoop_rejected (p : List Slot) (hp : ∃ t ∈ p, t.rejected = true) :
    ∀ (se sw : List ℚ) (sc sf : List Int) (cnt : Nat),
      ∃ what, beamLoop p.length
          ⟨p.map Slot.energy ++ se, p.map Slot.weight ++ sw, p.map Slot.scatter ++ sc,
            p.map Slot.flag ++ sf, cnt⟩ = .error (.invalidArgument what) := by
  induction p using List.reverseRecOn with
  | nil => simp at hp
  | append_singleton p t ih =>
    intro se sw sc sf cnt
    rw [beamLoop_step]
    by_cases hc : t.considered = true
    · simp only [hc, if_true]
      by_cases h1 : t.energy ≤ 0
      · exact ⟨_, by rw [if_pos h1]⟩
      · by_cases h2 : t.weight ≤ 0
        · exact ⟨_, by rw [if_neg h1, if_pos h2]⟩
        · rw [if_neg h1, if_neg h2]
          apply ih
          obtain ⟨u, hu, hr⟩ := hp
          rcases List.mem_append.1 hu with hu | hu
          · exact ⟨u, hu, hr⟩
          · have : u = t := by simpa using hu
            subst this
            simp [Slot.rejected, hc, h1, h2] at hr
    · simp only [hc, Bool.false_eq_true, if_false]
      apply ih
      obtain ⟨u, hu, hr⟩ := hp
      rcases List.mem_append.1 hu with hu | hu
      · exact ⟨u, hu, hr⟩
      · have : u = t := by simpa using hu
        subst this
        simp [Slot.rejected, hc] at hr

/-! ## From the loop on slots to the four parsed vectors -/

theorem map_getD_range {α : Type} (l : List α) (d : α) (n : Nat) (h : l.length = n) :
    (List.range n).map (fun i => l.getD i d) = l := by
  subst h
  apply List.ext_getElem
  · simp
  · intro i h1 h2
    simp [List.getD_eq_getElem?_getD, List.getElem?_eq_getElem h2]

theorem slots_filter (energy weight : List ℚ) (intVector flagVector : List Int) (n : Nat)
    (h : flagVector.length = n) :
    (slots energy weight intVector flagVector n).filter Slot.considered =
      (keptIndices energy flagVector).map (slotAt energy weight intVector flagVector) := by
  subst h
  simp only [slots, keptIndices, List.filter_map]
  rfl

theorem slots_rejected (energy weight : List ℚ) (intVector flagVector : List Int) (n : Nat) :
    (∃ t ∈ slots energy weight intVector flagVector n, t.rejected = true) ↔
      ∃ i, i < n ∧ rejected energy weight flagVector i = true := by
  simp only [slots, List.mem_map, List.mem_range]
  constructor
  · rintro ⟨t, ⟨i, hi, rfl⟩, ht⟩
    exact ⟨i, hi, ht⟩
  · rintro ⟨i, hi, ht⟩
    exact ⟨_, ⟨i, hi, rfl⟩, ht⟩

/-- The loop on four vectors of one length, without a rejected index. -/
theorem beamLoop_vectors_ok (energy weight : List ℚ) (intVector flagVector : List Int)
    (hw : weight.length = energy.length) (hc : intVector.length = energy.length)
    (hf : flagVector.length = energy.length)
    (hr : ∀ i, i < energy.length → rejected energy weight flagVector i = false) :
    beamLoop flagVector.length ⟨energy, weight, intVector, flagVector, 0⟩ =
      .ok ⟨(keptIndices energy flagVector).map (fun i => energy.getD i 0),
        (keptIndices energy flagVector).map (fun i => weight.getD i 0),
        (keptIndices energy flagVector).map (fun i => clampScatter (intVector.getD i 0)),
        flagVector, (keptIndices energy flagVector).length⟩ := by
  have hno : ∀ t ∈ slots energy weight intVector flagVector energy.length,
      t.rejected = false := by
    intro t ht
    by_contra hcon
    obtain ⟨i, hi, hri⟩ :=
      (slots_rejected energy weight intVector flagVector energy.length).1
        ⟨t, ht, by simpa using hcon⟩
    simp [hr i hi] at hri
  have key := beamLoop_ok (slots energy weight intVector flagVector energy.length) hno
    [] [] [] [] 0
  have e1 : (slots energy weight intVector flagVector energy.length).map Slot.energy =
      energy := by
    simpa [slots, slotAt, Function.comp_def] using map_getD_range energy 0 _ rfl
  have e2 : (slots energy weight intVector flagVector energy.length).map Slot.weight =
      weight := by
    simpa [slots, slotAt, Function.comp_def] using map_getD_range weight 0 _ hw
  have e3 : (slots energy weight intVector flagVector energy.length).map Slot.scatter =
      intVector := by
    simpa [slots, slotAt, Function.comp_def] using map_getD_range intVector 0 _ hc
  have e4 : (slots energy weight intVector flagVector energy.length).map Slot.flag =
      flagVector := by
    simpa [slots, slotAt, Function.comp_def] using map_getD_range flagVector 0 _ hf
  have e5 : (slots energy weight intVector flagVector energy.length).length =
      flagVector.length := by
    simp [slots, hf]
  rw [e1, e2, e3, e4, e5, slots_filter energy weight intVector flagVector _ hf] at key
  simpa [slotAt, Function.comp_def] using key

/-- The loop on four vectors of one length, with a rejected index. -/
theorem beamLoop_vectors_rejected (energy weight : List ℚ) (intVector flagVector : List Int)
    (hw : weight.length = energy.length) (hc : intVector.length = energy.length)
    (hf : flagVector.length = energy.length)
    (hr : ∃ i, i < energy.length ∧ rejected energy weight flagVector i = true) :
    ∃ what, beamLoop flagVector.length ⟨energy, weight, intVector, flagVector, 0⟩ =
      .error (.invalidArgument what) := by
  have hex := (slots_rejected energy weight intVector flagVector energy.length).2 hr
  obtain ⟨what, key⟩ :=
    beamLoop_rejected (slots energy weight intVector flagVector energy.length) hex
      [] [] [] [] 0
  have e1 : (slots energy weight intVector flagVector energy.length).map Slot.energy =
      energy := by
    simpa [slots, slotAt, Function.comp_def] using map_getD_range energy 0 _ rfl
  have e2 : (slots energy weight intVector flagVector energy.length).map Slot.weight =
      weight := by
    simpa [slots, slotAt, Function.comp_def] using map_getD_range weight 0 _ hw
  have e3 : (slots energy weight intVector flagVector energy.length).map Slot.scatter =
      intVector := by
    simpa [slots, slotAt, Function.comp_def] using map_getD_range intVector 0 _ hc
  have e4 : (slots energy weight intVector flagVector energy.length).map Slot.flag =
      flagVector := by
    simpa [slots, slotAt, Function.comp_def] using map_getD_range flagVector 0 _ hf
  have e5 : (slots energy weight intVector flagVector energy.length).length =
      flagVector.length := by
    simp [slots, hf]
  rw [e1, e2, e3, e4, e5] at key
  exact ⟨what, by simpa using key⟩

theorem rejected_iff (energy weight : List ℚ) (flagVector : List Int) (i : Nat) :
    rejected energy weight flagVector i = true ↔
      0 < flagVector.getD i 0 ∧ energy.getD i 0 ≠ -666 ∧
        (energy.getD i 0 ≤ 0 ∨ weight.getD i 0 ≤ 0) := by
  simp [rejected, considered, and_assoc]

/-- The beam stage without a rejected index: one call of `setBeam`. -/
theorem beamStage_ok (cfg : XRFConfig) (energy weight : List ℚ) (intVector flagVector : List Int)
    (w : List ℚ) (c f : List Int)
    (hw : fillIfEmpty weight energy.length 1 = w) (hc : fillIfEmpty intVector energy.length 1 = c)
    (hf : fillIfEmpty flagVector energy.length 1 = f)
    (lw : w.length = energy.length) (lc : c.length = energy.length)
    (lf : f.length = energy.length)
    (hr : ∀ i, i < energy.length → rejected energy w f i = false) :
    beamStage cfg energy weight intVector flagVector =
      .returned (cfg.setBeam ((keptIndices energy f).map (fun i => energy.getD i 0))
        ((keptIndices energy f).map (fun i => w.getD i 0))
        ((keptIndices energy f).map (fun i => clampScatter (c.getD i 0)))) := by
  simp only [beamStage, hw, hc, hf]
  rw [beamLoop_vectors_ok energy w c f lw lc lf hr]

/-- The beam stage with a rejected index: an exception before `setBeam`. -/
theorem beamStage_rejected (cfg : XRFConfig) (energy weight : List ℚ)
    (intVector flagVector : List Int) (w : List ℚ) (c f : List Int)
    (hw : fillIfEmpty weight energy.length 1 = w) (hc : fillIfEmpty intVector energy.length 1 = c)
    (hf : fillIfEmpty flagVector energy.length 1 = f)
    (lw : w.length = energy.length) (lc : c.length = energy.length)
    (lf : f.length = energy.length)
    (hr : ∃ i, i < energy.length ∧ rejected energy w f i = true) :
    ∃ what, beamStage cfg energy weight intVector flagVector = .threw what cfg := by
  obtain ⟨what, h⟩ := beamLoop_vectors_rejected energy w c f lw lc lf hr
  exact ⟨what, by simp only [beamStage, hw, hc, hf]; rw [h]⟩

/-! ## The loop when the flags are the shortest vector -/

theorem map_getD_range_take {α : Type} (l : List α) (d : α) (n : Nat) (h : n ≤ l.length) :
    (List.range n).map (fun i => l.getD i d) = l.take n := by
  apply List.ext_getElem
  · simp [h]
  · intro i h1 h2
    have hi : i < n := by simpa using h1
    have hl : i < l.length := Nat.lt_of_lt_of_le hi h
    simp [List.getD_eq_getElem?_getD, List.getElem?_eq_getElem hl]

theorem slots_map_energy (energy weight : List ℚ) (intVector flagVector : List Int) (n : Nat)
    (h : n ≤ energy.length) :
    (slots energy weight intVector flagVector n).map Slot.energy = energy.take n := by
  simpa [slots, slotAt, Function.comp_def] using map_getD_range_take energy 0 n h

theorem slots_map_weight (energy weight : List ℚ) (intVector flagVector : List Int) (n : Nat)
    (h : n ≤ weight.length) :
    (slots energy weight intVector flagVector n).map Slot.weight = weight.take n := by
  simpa [slots, slotAt, Function.comp_def] using map_getD_range_take weight 0 n h

theorem slots_map_scatter (energy weight : List ℚ) (intVector flagVector : List Int) (n : Nat)
    (h : n ≤ intVector.length) :
    (slots energy weight intVector flagVector n).map Slot.scatter = intVector.take n := by
  simpa [slots, slotAt, Function.comp_def] using map_getD_range_take intVector 0 n h

theorem slots_map_flag (energy weight : List ℚ) (intVector flagVector : List Int) :
    (slots energy weight intVector flagVector flagVector.length).map Slot.flag =
      flagVector := by
  simpa [slots, slotAt, Function.comp_def] using map_getD_range flagVector 0 _ rfl

/-- The loop on vectors at least as long as the flags, without a rejected index:
the entries past the flags are never visited and stay where they are. -/
theorem beamLoop_flags_ok (energy weight : List ℚ) (intVector flagVector : List Int)
    (he : flagVector.length ≤ energy.length) (hw : flagVector.length ≤ weight.length)
    (hc : flagVector.length ≤ intVector.length)
    (hr : ∀ i, i < flagVector.length → rejected energy weight flagVector i = false) :
    beamLoop flagVector.length ⟨energy, weight, intVector, flagVector, 0⟩ =
      .ok ⟨(keptIndices energy flagVector).map (fun i => energy.getD i 0) ++
          energy.drop flagVector.length,
        (keptIndices energy flagVector).map (fun i => weight.getD i 0) ++
          weight.drop flagVector.length,
        (keptIndices energy flagVector).map (fun i => clampScatter (intVector.getD i 0)) ++
          intVector.drop flagVector.length,
        flagVector, (keptIndices energy flagVector).length⟩ := by
  have hno : ∀ t ∈ slots energy weight intVector flagVector flagVector.length,
      t.rejected = false := by
    intro t ht
    by_contra hcon
    obtain ⟨i, hi, hri⟩ :=
      (slots_rejected energy weight intVector flagVector flagVector.length).1
        ⟨t, ht, by simpa using hcon⟩
    simp [hr i hi] at hri
  have key := beamLoop_ok (slots energy weight intVector flagVector flagVector.length) hno
    (energy.drop flagVector.length) (weight.drop flagVector.length)
    (intVector.drop flagVector.length) [] 0
  have e5 : (slots energy weight intVector flagVector flagVector.length).length =
      flagVector.length := by
    simp [slots]
  rw [slots_map_energy _ _ _ _ _ he, slots_map_weight _ _ _ _ _ hw,
    slots_map_scatter _ _ _ _ _ hc, slots_map_flag, e5,
    slots_filter energy weight intVector flagVector _ rfl] at key
  simpa [slotAt, Function.comp_def] using key

/-- The loop on vectors at least as long as the flags, with a rejected index. -/
theorem beamLoop_flags_rejected (energy weight : List ℚ) (intVector flagVector : List Int)
    (he : flagVector.length ≤ energy.length) (hw : flagVector.length ≤ weight.length)
    (hc : flagVector.length ≤ intVector.length)
    (hr : ∃ i, i < flagVector.length ∧ rejected energy weight flagVector i = true) :
    ∃ what, beamLoop flagVector.length ⟨energy, weight, intVector, flagVector, 0⟩ =
      .error (.invalidArgument what) := by
  have hex := (slots_rejected energy weight intVector flagVector flagVector.length).2 hr
  obtain ⟨what, key⟩ :=
    beamLoop_rejected (slots energy weight intVector flagVector flagVector.length) hex
      (energy.drop flagVector.length) (weight.drop flagVector.length)
      (intVector.drop flagVector.length) [] 0
  have e5 : (slots energy weight intVector flagVector flagVector.length).length =
      flagVector.length := by
    simp [slots]
  rw [slots_map_energy _ _ _ _ _ he, slots_map_weight _ _ _ _ _ hw,
    slots_map_scatter _ _ _ _ _ hc, slots_map_flag, e5] at key
  exact ⟨what, by simpa using key⟩

theorem vecAt_eq_none {α : Type} (v : List α) (i : Nat) (h : ¬ i < v.length) :
    vecAt v i = none := by
  simp only [vecAt]
  exact List.getElem?_eq_none (Nat.le_of_not_lt h)

theorem vecErase_eq_none {α : Type} (v : List α) (i : Nat) (h : ¬ i < v.length) :
    vecErase v i = none := by
  simp [vecErase, h]

/-- A step of the loop that does not fail has found index `i` in the three
vectors next to the flags. -/
theorem beamLoop_succ_ok_lt (i : Nat) (v v1 : BeamVectors)
    (h : beamLoop (i + 1) v = .ok v1) :
    i < v.energy.length ∧ i < v.weight.length ∧ i < v.intVector.length := by
  rw [beamLoop] at h
  refine ⟨?_, ?_, ?_⟩
  · by_contra hn
    rw [vecAt_eq_none v.energy i hn, vecErase_eq_none v.energy i hn] at h
    repeat' split at h
    all_goals first
      | cases h
      | (rename_i heq; simp at heq; done)
      | simp_all
  · by_contra hn
    rw [vecAt_eq_none v.weight i hn, vecErase_eq_none v.weight i hn] at h
    repeat' split at h
    all_goals first
      | cases h
      | (rename_i heq; simp at heq; done)
      | simp_all
  · by_contra hn
    rw [vecAt_eq_none v.intVector i hn, vecErase_eq_none v.intVector i hn] at h
    repeat' split at h
    all_goals first
      | cases h
      | (rename_i heq; simp at heq; done)
      | simp_all

/-- A loop that ends has found every flagged index in the three other vectors. -/
theorem beamLoop_ok_le (n : Nat) (v v1 : BeamVectors) (h : beamLoop n v = .ok v1) :
    n ≤ v.energy.length ∧ n ≤ v.weight.length ∧ n ≤ v.intVector.length := by
  cases n with
  | zero => simp
  | succ i =>
    obtain ⟨a, b, c⟩ := beamLoop_succ_ok_lt i v v1 h
    exact ⟨a, b, c⟩

/-- What a beam stage that returns has done. -/
theorem beamStage_returned_inv (cfg cfg1 : XRFConfig) (energy weight : List ℚ)
    (intVector flagVector : List Int)
    (h : beamStage cfg energy weight intVector flagVector = .returned cfg1) :
    ∃ v, beamLoop (fillIfEmpty flagVector energy.length 1).length
        ⟨energy, fillIfEmpty weight energy.length 1, fillIfEmpty intVector energy.length 1,
          fillIfEmpty flagVector energy.length 1, 0⟩ = .ok v ∧
      cfg1 = cfg.setBeam v.energy v.weight v.intVector := by
  simp only [beamStage] at h
  split at h
  · cases h
  · cases h
  · rename_i v hv
    cases h
    exact ⟨v, hv, rfl⟩

theorem vecAt_getD {α : Type} (v : List α) (i : Nat) (x d : α) (h : vecAt v i = some x) :
    v.getD i d = x := by
  simp only [vecAt] at h
  simp [List.getD_eq_getElem?_getD, h]

theorem consideredGuard_true (flag : Int) (energy : List ℚ) (i : Nat)
    (h : (if 0 < flag then (vecAt energy i).map (fun e => decide (e ≠ -666))
      else some false) = some true) :
    0 < flag ∧ energy.getD i 0 ≠ -666 := by
  by_cases hpos : 0 < flag
  · rw [if_pos hpos] at h
    cases he : vecAt energy i with
    | none => rw [he] at h; cases h
    | some e =>
      rw [he] at h
      simp only [Option.map, Option.some.injEq, decide_eq_true_eq] at h
      exact ⟨hpos, by rw [vecAt_getD energy i e 0 he]; exact h⟩
  · rw [if_neg hpos] at h
    cases h

theorem vecErase_getD_lt {α : Type} (v r : List α) (i j : Nat) (d : α)
    (h : vecErase v i = some r) (hj : j < i) : r.getD j d = v.getD j d := by
  simp only [vecErase] at h
  split at h
  · cases h
    simp [List.getD_eq_getElem?_getD, List.getElem?_eraseIdx, hj]
  · cases h

/-- An exception of the loop comes from a considered index whose energy or weight
is not positive, whatever the lengths and the characteristic values. -/
theorem beamLoop_threw_rejected (n : Nat) :
    ∀ (v : BeamVectors) (what : String), beamLoop n v = .error (.invalidArgument what) →
      ∃ i, i < n ∧ 0 < v.flagVector.getD i 0 ∧ v.energy.getD i 0 ≠ -666 ∧
        (v.energy.getD i 0 ≤ 0 ∨ v.weight.getD i 0 ≤ 0) := by
  induction n with
  | zero =>
    intro v what h
    simp [beamLoop] at h
  | succ i ih =>
    intro v what h
    rw [beamLoop] at h
    split at h
    · cases h
    · rename_i flag hflag
      split at h
      · cases h
      · rename_i hguard
        obtain ⟨g1, g2⟩ := consideredGuard_true flag v.energy i hguard
        split at h
        · cases h
        · rename_i e he
          split at h
          · rename_i hle
            refine ⟨i, Nat.lt_succ_self i, ?_, g2, Or.inl ?_⟩
            · rw [vecAt_getD v.flagVector i flag 0 hflag]; exact g1
            · rw [vecAt_getD v.energy i e 0 he]; exact hle
          · split at h
            · cases h
            · rename_i w hwt
              split at h
              · rename_i hle
                refine ⟨i, Nat.lt_succ_self i, ?_, g2, Or.inr ?_⟩
                · rw [vecAt_getD v.flagVector i flag 0 hflag]; exact g1
                · rw [vecAt_getD v.weight i w 0 hwt]; exact hle
              · split at h
                · cases h
                · obtain ⟨j, hj, a, b, c⟩ := ih _ _ h
                  exact ⟨j, Nat.lt_succ_of_lt hj, a, b, c⟩
      · split at h
        · rename_i en wt iv h1 h2 h3
          obtain ⟨j, hj, a, b, c⟩ := ih _ _ h
          simp only [vecErase_getD_lt v.energy en i j 0 h1 hj,
            vecErase_getD_lt v.weight wt i j 0 h2 hj] at b c
          exact ⟨j, Nat.lt_succ_of_lt hj, a, b, c⟩
        · cases h

/-! ## The beam stage of `readConfigurationFromFile` -/

/-- C1: in the beam stage of `readConfigurationFromFile` a negative characteristic
value is not an error. Whatever the characteristic values and the lengths of the
vectors: the stage returns exactly when the three other vectors are at least as
long as the flags and every considered entry has a positive energy and a positive
weight; when it returns, the characteristic sequence handed to `setBeam` holds, for
every kept entry in order, `0` where the parsed value is negative and the parsed
value itself otherwise, followed by the entries past the flags, which the loop
does not visit; and when it throws, some considered entry has an energy or a
weight that is not positive. -/
theorem beamStage_negative_characteristic_reset (cfg : XRFConfig) (energy weight : List ℚ)
    (intVector flagVector : List Int) (w : List ℚ) (c f : List Int)
    (hw : fillIfEmpty weight energy.length 1 = w)
    (hc : fillIfEmpty intVector energy.length 1 = c)
    (hf : fillIfEmpty flagVector energy.length 1 = f) :
    ((∃ cfg1, beamStage cfg energy weight intVector flagVector = .returned cfg1) ↔
      (f.length ≤ energy.length ∧ f.length ≤ w.length ∧ f.length ≤ c.length ∧
        ∀ i, i < f.length → 0 < f.getD i 0 → energy.getD i 0 ≠ -666 →
          0 < energy.getD i 0 ∧ 0 < w.getD i 0)) ∧
    (∀ cfg1, beamStage cfg energy weight intVector flagVector = .returned cfg1 →
      ∃ call : BeamCall, cfg1 = { cfg with beamCalls := cfg.beamCalls ++ [call] } ∧
        call.characteristic =
          ((List.range f.length).filter
            (fun i => decide (0 < f.getD i 0) && decide (energy.getD i 0 ≠ -666))).map
            (fun i => if c.getD i 0 < 0 then 0 else c.getD i 0) ++ c.drop f.length) ∧
    (∀ what cfg1, beamStage cfg energy weight intVector flagVector = .threw what cfg1 →
      ∃ i, i < f.length ∧ 0 < f.getD i 0 ∧ energy.getD i 0 ≠ -666 ∧
        (energy.getD i 0 ≤ 0 ∨ w.getD i 0 ≤ 0)) := by
  have hstage : ∀ r, beamLoop f.length ⟨energy, w, c, f, 0⟩ = r →
      beamStage cfg energy weight intVector flagVector =
        (match r with
          | .error (.invalidArgument what) => .threw what cfg
          | .error .undefinedBehaviour => .undefinedBehaviour
          | .ok v => .returned (cfg.setBeam v.energy v.weight v.intVector)) := by
    intro r hr
    simp only [beamStage, hw, hc, hf]
    rw [hr]
  have hgood : (f.length ≤ energy.length ∧ f.length ≤ w.length ∧ f.length ≤ c.length ∧
      ∀ i, i < f.length → 0 < f.getD i 0 → energy.getD i 0 ≠ -666 →
        0 < energy.getD i 0 ∧ 0 < w.getD i 0) →
      beamStage cfg energy weight intVector flagVector =
        .returned (cfg.setBeam
          ((keptIndices energy f).map (fun i => energy.getD i 0) ++ energy.drop f.length)
          ((keptIndices energy f).map (fun i => w.getD i 0) ++ w.drop f.length)
          ((keptIndices energy f).map (fun i => clampScatter (c.getD i 0)) ++
            c.drop f.length)) := by
    rintro ⟨l1, l2, l3, hr⟩
    have hr1 : ∀ i, i < f.length → rejected energy w f i = false := by
      intro i hi
      by_contra hcon
      have h1 : rejected energy w f i = true := by simpa using hcon
      obtain ⟨a, b, d⟩ := (rejected_iff energy w f i).1 h1
      obtain ⟨p, q⟩ := hr i hi a b
      rcases d with d | d
      · exact absurd p (not_lt.2 d)
      · exact absurd q (not_lt.2 d)
    rw [hstage _ (beamLoop_flags_ok energy w c f l1 l2 l3 hr1)]
  have hconv : (∃ cfg1, beamStage cfg energy weight intVector flagVector = .returned cfg1) →
      (f.length ≤ energy.length ∧ f.length ≤ w.length ∧ f.length ≤ c.length ∧
        ∀ i, i < f.length → 0 < f.getD i 0 → energy.getD i 0 ≠ -666 →
          0 < energy.getD i 0 ∧ 0 < w.getD i 0) := by
    rintro ⟨cfg1, h⟩
    obtain ⟨v, hv, _⟩ := beamStage_returned_inv cfg cfg1 energy weight intVector flagVector h
    rw [hw, hc, hf] at hv
    obtain ⟨l1, l2, l3⟩ := beamLoop_ok_le _ _ _ hv
    refine ⟨l1, l2, l3, fun i hi a b => ?_⟩
    by_contra hcon
    have hrej : rejected energy w f i = true := by
      apply (rejected_iff energy w f i).2
      refine ⟨a, b, ?_⟩
      by_contra hno
      exact hcon ⟨not_le.1 (fun x => hno (Or.inl x)), not_le.1 (fun x => hno (Or.inr x))⟩
    obtain ⟨what, herr⟩ := beamLoop_flags_rejected energy w c f l1 l2 l3 ⟨i, hi, hrej⟩
    rw [hv] at herr
    cases herr
  have hk : (List.range f.length).filter
      (fun i => decide (0 < f.getD i 0) && decide (energy.getD i 0 ≠ -666)) =
      keptIndices energy f := rfl
  refine ⟨⟨hconv, fun h => ⟨_, hgood h⟩⟩, fun cfg1 h => ?_, fun what cfg1 h => ?_⟩
  · rw [hgood (hconv ⟨cfg1, h⟩)] at h
    cases h
    exact ⟨_, rfl, by rw [hk]; rfl⟩
  · cases hl : beamLoop f.length ⟨energy, w, c, f, 0⟩ with
    | ok v =>
      rw [hstage _ hl] at h
      cases h
    | error e =>
      cases e with
      | undefinedBehaviour =>
        rw [hstage _ hl] at h
        cases h
      | invalidArgument what1 =>
        exact beamLoop_threw_rejected _ _ _ hl

/-- Witness of C1: three energies with default weights and a single flag; the
first entry is kept with a negative characteristic value, the other two are past
the flags. -/
theorem beamStage_negative_characteristic_reset_witness :
    ∃ call : BeamCall,
      beamStage XRFConfig.new [10, -5, 7] [] [-1, -2, -3] [1] =
        .returned { XRFConfig.new with beamCalls := XRFConfig.new.beamCalls ++ [call] } ∧
      call.characteristic = [0, -2, -3] := by
  have key := beamStage_negative_characteristic_reset XRFConfig.new [10, -5, 7] []
    [-1, -2, -3] [1] [1, 1, 1] [-1, -2, -3] [1] rfl rfl rfl
  obtain ⟨cfg1, h1⟩ := key.1.2 ⟨by decide, by decide, by decide, by decide⟩
  obtain ⟨call, h2, h3⟩ := key.2.1 cfg1 h1
  exact ⟨call, by rw [h1, h2], by rw [h3]; decide⟩

/-- C5: on vectors of one common length, the beam stage throws `std::invalid_argument`
exactly when some index has a positive flag, an energy other than `-666`, and an
energy or a weight that is not positive; when it throws the object is unchanged
(`setBeam` was not called), and otherwise it made exactly one call of `setBeam`. -/
theorem beamStage_throws_iff (cfg : XRFConfig) (energy weight : List ℚ)
    (intVector flagVector : List Int) (w : List ℚ) (c f : List Int)
    (hw : fillIfEmpty weight energy.length 1 = w)
    (hc : fillIfEmpty intVector energy.length 1 = c)
    (hf : fillIfEmpty flagVector energy.length 1 = f)
    (lw : w.length = energy.length) (lc : c.length = energy.length)
    (lf : f.length = energy.length) :
    ((∃ what cfg1, beamStage cfg energy weight intVector flagVector = .threw what cfg1) ↔
      ∃ i, i < energy.length ∧ 0 < f.getD i 0 ∧ energy.getD i 0 ≠ -666 ∧
        (energy.getD i 0 ≤ 0 ∨ w.getD i 0 ≤ 0)) ∧
    (∀ what cfg1, beamStage cfg energy weight intVector flagVector = .threw what cfg1 →
      cfg1 = cfg) ∧
    ((¬ ∃ what cfg1, beamStage cfg energy weight intVector flagVector = .threw what cfg1) →
      ∃ call : BeamCall, beamStage cfg energy weight intVector flagVector =
        .returned { cfg with beamCalls := cfg.beamCalls ++ [call] }) := by
  by_cases hr : ∃ i, i < energy.length ∧ rejected energy w f i = true
  · obtain ⟨what, hth⟩ :=
      beamStage_rejected cfg energy weight intVector flagVector w c f hw hc hf lw lc lf hr
    refine ⟨⟨fun _ => ?_, fun _ => ⟨what, cfg, hth⟩⟩, ?_, fun hn => absurd ⟨what, cfg, hth⟩ hn⟩
    · obtain ⟨i, hi, h⟩ := hr
      exact ⟨i, hi, (rejected_iff energy w f i).1 h⟩
    · intro what1 cfg1 h
      rw [hth] at h
      injection h with _ h2
      exact h2.symm
  · have hr1 : ∀ i, i < energy.length → rejected energy w f i = false := by
      intro i hi
      by_contra hcon
      exact hr ⟨i, hi, by simpa using hcon⟩
    have hok := beamStage_ok cfg energy weight intVector flagVector w c f hw hc hf lw lc lf hr1
    refine ⟨⟨?_, ?_⟩, ?_, fun _ => ⟨_, hok⟩⟩
    · rintro ⟨what, cfg1, h⟩
      rw [hok] at h
      cases h
    · rintro ⟨i, hi, h⟩
      exact absurd ⟨i, hi, (rejected_iff energy w f i).2 h⟩ hr
    · intro what cfg1 h
      rw [hok] at h
      cases h

/-- Witness of C5: the second entry is enabled with a weight of zero, so the
stage throws and leaves the object as it was. -/
theorem beamStage_throws_iff_witness :
    (∃ i, i < ([10, 5] : List ℚ).length ∧ 0 < ([1, 1] : List Int).getD i 0 ∧
      ([10, 5] : List ℚ).getD i 0 ≠ -666 ∧
      (([10, 5] : List ℚ).getD i 0 ≤ 0 ∨ ([1, 0] : List ℚ).getD i 0 ≤ 0)) ∧
    ∃ what cfg1, beamStage XRFConfig.new [10, 5] [1, 0] [] [] = .threw what cfg1 :=
  ⟨⟨1, by decide⟩,
    (beamStage_throws_iff XRFConfig.new [10, 5] [1, 0] [] [] [1, 0] [1, 1] [1, 1]
      rfl rfl rfl rfl rfl rfl).1.2 ⟨1, by decide⟩⟩

/-- C6, as stated, fails: with one enabled entry whose characteristic value is
`-1`, `setBeam` receives the characteristic sequence `[0]`, which is not the
subsequence `[-1]` of the parsed entries. -/
theorem beamStage_characteristic_not_subsequence :
    beamStage XRFConfig.new [1] [1] [-1] [1] =
      .returned (XRFConfig.new.setBeam [1] [1] [0]) ∧
    beamStage XRFConfig.new [1] [1] [-1] [1] ≠
      .returned (XRFConfig.new.setBeam
        (((List.range 1).filter
          (fun i => decide (0 < ([1] : List Int).getD i 0) &&
            decide (([1] : List ℚ).getD i 0 ≠ -666))).map (fun i => ([1] : List ℚ).getD i 0))
        (((List.range 1).filter
          (fun i => decide (0 < ([1] : List Int).getD i 0) &&
            decide (([1] : List ℚ).getD i 0 ≠ -666))).map (fun i => ([1] : List ℚ).getD i 0))
        (((List.range 1).filter
          (fun i => decide (0 < ([1] : List Int).getD i 0) &&
            decide (([1] : List ℚ).getD i 0 ≠ -666))).map
          (fun i => ([-1] : List Int).getD i 0))) := by
  decide

/-- C6, amended: on vectors of one common length without a rejected entry, the
energy and weight sequences handed to `setBeam` are the subsequences, in the
original order, of the entries at the indices with a positive flag and an energy
other than `-666`; the characteristic sequence is the subsequence at the same
indices with every negative value replaced by `0`; the three sequences have the
length of the list of those indices. -/
theorem beamStage_passes_kept_subsequences (cfg : XRFConfig) (energy weight : List ℚ)
    (intVector flagVector : List Int) (w : List ℚ) (c f : List Int)
    (hw : fillIfEmpty weight energy.length 1 = w)
    (hc : fillIfEmpty intVector energy.length 1 = c)
    (hf : fillIfEmpty flagVector energy.length 1 = f)
    (lw : w.length = energy.length) (lc : c.length = energy.length)
    (lf : f.length = energy.length)
    (hr : ¬ ∃ i, i < energy.length ∧ 0 < f.getD i 0 ∧ energy.getD i 0 ≠ -666 ∧
      (energy.getD i 0 ≤ 0 ∨ w.getD i 0 ≤ 0)) :
    ∃ call : BeamCall,
      beamStage cfg energy weight intVector flagVector =
        .returned { cfg with beamCalls := cfg.beamCalls ++ [call] } ∧
      call.energy =
        ((List.range energy.length).filter
          (fun i => decide (0 < f.getD i 0) && decide (energy.getD i 0 ≠ -666))).map
          (fun i => energy.getD i 0) ∧
      call.weight =
        ((List.range energy.length).filter
          (fun i => decide (0 < f.getD i 0) && decide (energy.getD i 0 ≠ -666))).map
          (fun i => w.getD i 0) ∧
      call.characteristic =
        ((List.range energy.length).filter
          (fun i => decide (0 < f.getD i 0) && decide (energy.getD i 0 ≠ -666))).map
          (fun i => if c.getD i 0 < 0 then 0 else c.getD i 0) ∧
      call.energy.length = call.weight.length ∧
      call.weight.length = call.characteristic.length ∧
      call.energy.length =
        ((List.range energy.length).filter
          (fun i => decide (0 < f.getD i 0) && decide (energy.getD i 0 ≠ -666))).length := by
  have hr1 : ∀ i, i < energy.length → rejected energy w f i = false := by
    intro i hi
    by_contra hcon
    exact hr ⟨i, hi, (rejected_iff energy w f i).1 (by simpa using hcon)⟩
  have hk : (List.range energy.length).filter
      (fun i => decide (0 < f.getD i 0) && decide (energy.getD i 0 ≠ -666)) =
      keptIndices energy f := by
    rw [keptIndices, lf]
    rfl
  rw [hk]
  refine ⟨_, beamStage_ok cfg energy weight intVector flagVector w c f hw hc hf lw lc lf hr1,
    rfl, rfl, rfl, ?_, ?_, ?_⟩ <;> simp

/-- Witness of C6: four entries, one switched off, one a missing slot, one with a
negative characteristic value, and flags left to their default. -/
theorem beamStage_passes_kept_subsequences_witness :
    beamStage XRFConfig.new [10, -666, 5, 7] [1, 1, 2, 3] [1, 1, -1, 0] [1, 1, 1, 0] =
      .returned (XRFConfig.new.setBeam [10, 5] [1, 2] [1, 0]) := by
  obtain ⟨call, h, he, hw, hc, _⟩ :=
    beamStage_passes_kept_subsequences XRFConfig.new [10, -666, 5, 7] [1, 1, 2, 3]
      [1, 1, -1, 0] [1, 1, 1, 0] [1, 1, 2, 3] [1, 1, -1, 0] [1, 1, 1, 0]
      rfl rfl rfl rfl rfl rfl (by decide)
  have e1 : call.energy = [10, 5] := by rw [he]; decide
  have e2 : call.weight = [1, 2] := by rw [hw]; decide
  have e3 : call.characteristic = [1, 0] := by rw [hc]; decide
  rw [h]
  cases call
  simp only at e1 e2 e3
  subst e1 e2 e3
  rfl

/-! ## Recognition of the file -/

/-- The only messages the beam loop throws. -/
theorem beamLoop_error_what (n : Nat) :
    ∀ (v : BeamVectors) (what : String), beamLoop n v = .error (.invalidArgument what) →
      what = "Negative excitation beam photon energy" ∨
        what = "Negative excitation beam photon weight" := by
  induction n with
  | zero =>
    intro v what h
    simp [beamLoop] at h
  | succ i ih =>
    intro v what h
    rw [beamLoop] at h
    repeat' split at h
    all_goals first
      | exact ih _ _ h
      | (injection h with h1; injection h1 with h2
         first | exact Or.inl h2.symm | exact Or.inr h2.symm)
      | cases h

/-- The beam stage throws nothing but the two messages of the loop. -/
theorem beamStage_threw_what (cfg cfg1 : XRFConfig) (energy weight : List ℚ)
    (intVector flagVector : List Int) (what : String)
    (h : beamStage cfg energy weight intVector flagVector = .threw what cfg1) :
    what = "Negative excitation beam photon energy" ∨
      what = "Negative excitation beam photon weight" := by
  simp only [beamStage] at h
  split at h
  · rename_i heq
    cases h
    exact beamLoop_error_what _ _ _ heq
  · cases h
  · cases h

/-- The attenuator stage never throws. -/
theorem attenuatorStage_not_threw (iniFile : SimpleIni) (cfg cfg1 : XRFConfig) (what : String) :
    attenuatorStage iniFile cfg ≠ .threw what cfg1 := by
  intro h
  simp only [attenuatorStage] at h
  split at h <;> cases h

/-- After the section is found, the reader throws nothing but the two messages of
the beam loop. -/
theorem readPyMcaConfiguration_threw_what (cfg cfg1 : XRFConfig) (iniFile : SimpleIni)
    (sectionContents : List (String × String)) (what : String)
    (h : readPyMcaConfiguration cfg iniFile sectionContents = .threw what cfg1) :
    what = "Negative excitation beam photon energy" ∨
      what = "Negative excitation beam photon weight" := by
  simp only [readPyMcaConfiguration] at h
  split at h
  · exact absurd h (attenuatorStage_not_threw _ _ _ _)
  · rename_i o hne
    exact beamStage_threw_what _ _ _ _ _ _ _ h

/-- C4: `readConfigurationFromFile` throws
`invalid_argument("File not recognized as a fisx or PyMca configuration file.")`
exactly when the sections "fisx", "fit" and "result.config" are all empty; with a
non-empty "fisx" section it returns and leaves the object as it was; and with an
empty "fisx" section and a non-empty "fit" or "result.config" section it does not
throw that exception. -/
theorem readConfigurationFromFile_not_recognized_iff (cfg : XRFConfig) (iniFile : SimpleIni) :
    ((∃ cfg1, readConfigurationFromFile cfg iniFile =
        .threw "File not recognized as a fisx or PyMca configuration file." cfg1) ↔
      (iniFile.readSection "fisx" false = [] ∧ iniFile.readSection "fit" false = [] ∧
        iniFile.readSection "result.config" false = [])) ∧
    (iniFile.readSection "fisx" false ≠ [] →
      readConfigurationFromFile cfg iniFile = .returned cfg) ∧
    (iniFile.readSection "fisx" false = [] →
      (iniFile.readSection "fit" false ≠ [] ∨
        iniFile.readSection "result.config" false ≠ []) →
      ∀ cfg1, readConfigurationFromFile cfg iniFile ≠
        .threw "File not recognized as a fisx or PyMca configuration file." cfg1) := by
  have hne : ∀ (sectionContents : List (String × String)) (cfg1 : XRFConfig),
      readPyMcaConfiguration cfg iniFile sectionContents ≠
        .threw "File not recognized as a fisx or PyMca configuration file." cfg1 := by
    intro sectionContents cfg1 h
    rcases readPyMcaConfiguration_threw_what _ _ _ _ _ h with h1 | h1 <;>
      exact absurd h1 (by decide)
  have hiff : (∃ cfg1, readConfigurationFromFile cfg iniFile =
        .threw "File not recognized as a fisx or PyMca configuration file." cfg1) ↔
      (iniFile.readSection "fisx" false = [] ∧ iniFile.readSection "fit" false = [] ∧
        iniFile.readSection "result.config" false = []) := by
    by_cases h1 : iniFile.readSection "fisx" false = []
    · by_cases h2 : iniFile.readSection "fit" false = []
      · by_cases h3 : iniFile.readSection "result.config" false = []
        · refine ⟨fun _ => ⟨h1, h2, h3⟩, fun _ => ⟨cfg, ?_⟩⟩
          simp [readConfigurationFromFile, h1, h2, h3]
        · refine ⟨?_, fun h => absurd h.2.2 h3⟩
          rintro ⟨cfg1, h⟩
          simp only [readConfigurationFromFile, h1, h2, List.length_nil, ne_eq,
            not_true_eq_false, decide_False, Bool.false_eq_true, if_false, if_true,
            List.length_eq_zero, h3] at h
          exact absurd h (hne _ _)
      · refine ⟨?_, fun h => absurd h.2.1 h2⟩
        rintro ⟨cfg1, h⟩
        simp only [readConfigurationFromFile, h1, List.length_nil, ne_eq, not_true_eq_false,
          decide_False, Bool.false_eq_true, if_false, List.length_eq_zero, h2] at h
        exact absurd h (hne _ _)
    · refine ⟨?_, fun h => absurd h.1 h1⟩
      rintro ⟨cfg1, h⟩
      simp [readConfigurationFromFile, h1] at h
  refine ⟨hiff, fun h1 => ?_, fun _ h2 cfg1 h => ?_⟩
  · simp [readConfigurationFromFile, h1]
  · obtain ⟨_, h3, h4⟩ := hiff.1 ⟨cfg1, h⟩
    rcases h2 with h2 | h2
    · exact h2 h3
    · exact h2 h4

/-- Witness of C4: a file without sections is not recognized, a file with a
"fisx" section is read without an exception, and a PyMca file does not raise the
exception. -/
theorem readConfigurationFromFile_not_recognized_iff_witness :
    (∃ cfg1, readConfigurationFromFile XRFConfig.new emptyFile =
      .threw "File not recognized as a fisx or PyMca configuration file." cfg1) ∧
    readConfigurationFromFile XRFConfig.new fisxFile = .returned XRFConfig.new ∧
    ∀ cfg1, readConfigurationFromFile XRFConfig.new beamFilterFile ≠
      .threw "File not recognized as a fisx or PyMca configuration file." cfg1 :=
  ⟨(readConfigurationFromFile_not_recognized_iff XRFConfig.new emptyFile).1.2 ⟨rfl, rfl, rfl⟩,
    (readConfigurationFromFile_not_recognized_iff XRFConfig.new fisxFile).2.1 (by decide),
    (readConfigurationFromFile_not_recognized_iff XRFConfig.new beamFilterFile).2.2 rfl
      (Or.inl (by decide))⟩

/-! ## The "attenuators" section -/

/-- The first nine characters of a key are never the ten characters "BeamFilter". -/
theorem substr0_nine_ne_BeamFilter (key : String) : substr0 key 9 ≠ "BeamFilter" := by
  intro h
  have h1 := congrArg String.length h
  have h2 : (substr0 key 9).length ≤ 9 := by
    simp only [substr0, String.length, List.length_take]
    omega
  have h3 : ("BeamFilter" : String).length = 10 := by decide
  omega

/-- An entry of the "attenuators" section never changes `beamFilters`. -/
theorem attenuatorEntry_beamFilters (iniFile : SimpleIni) (cfg cfg1 : XRFConfig)
    (key content : String) (h : attenuatorEntry iniFile cfg key content = some cfg1) :
    cfg1.beamFilters = cfg.beamFilters := by
  unfold attenuatorEntry at h
  simp only [substr0_nine_ne_BeamFilter, if_false] at h
  repeat' split at h
  all_goals first
    | (cases h; rfl)
    | cases h
    | (revert h
       cases mkLayer (iniFile.parseStrings content "") (iniFile.parseDoubles content (-1)) with
       | none => intro h; cases h
       | some layer => intro h; cases h; rfl)

theorem attenuatorLoop_beamFilters (iniFile : SimpleIni) :
    ∀ (entries : List (String × String)) (cfg cfg1 : XRFConfig),
      attenuatorLoop iniFile entries cfg = some cfg1 → cfg1.beamFilters = cfg.beamFilters := by
  intro entries
  induction entries with
  | nil =>
    intro cfg cfg1 h
    simp only [attenuatorLoop, Option.some.injEq] at h
    rw [h]
  | cons e rest ih =>
    intro cfg cfg1 h
    obtain ⟨key, content⟩ := e
    rw [attenuatorLoop] at h
    split at h
    · cases h
    · rename_i cfg2 h2
      rw [ih cfg2 cfg1 h, attenuatorEntry_beamFilters iniFile cfg cfg2 key content h2]

/-- Whatever the "attenuators" section holds, a PyMca file that is read to the end
leaves `beamFilters` empty. -/
theorem readConfigurationFromFile_beamFilters_empty (cfg cfg1 : XRFConfig)
    (iniFile : SimpleIni) (hf : iniFile.readSection "fisx" false = [])
    (h : readConfigurationFromFile cfg iniFile = .returned cfg1) : cfg1.beamFilters = [] := by
  have key : ∀ sectionContents,
      readPyMcaConfiguration cfg iniFile sectionContents = .returned cfg1 →
        cfg1.beamFilters = [] := by
    intro sectionContents h1
    simp only [readPyMcaConfiguration] at h1
    split at h1
    · simp only [attenuatorStage] at h1
      split at h1
      · rename_i cfg2 h2
        cases h1
        exact attenuatorLoop_beamFilters iniFile _ _ _ h2
      · cases h1
    · rename_i o hne
      exact absurd h1 (hne cfg1)
  simp only [readConfigurationFromFile, hf, List.length_nil, ne_eq, not_true_eq_false,
    decide_False, Bool.false_eq_true, if_false] at h
  split at h
  · split at h
    · cases h
    · exact key _ h
  · exact key _ h

/-- C7: for the file `[fit] energy = 10.0`, `[attenuators] BeamFilter0 = 1, Al, 2.7, 0.1, 1.0`
the reader returns with `beamFilters` empty and the layer of the enabled entry
"BeamFilter0" in `attenuators`. -/
theorem readConfigurationFromFile_beamFilter_goes_to_attenuators :
    readConfigurationFromFile XRFConfig.new beamFilterFile =
      .returned
        { XRFConfig.new.setBeam [10] [1] [1] with
          beamFilters := []
          attenuators := [⟨"Al", 27 / 10, 1 / 10, 1⟩]
          sample := [] } := by
  rfl

/-! ## Properties of the vacancy distribution -/

theorem lookup_isSome_iff {β : Type} (m : List (String × β)) (s : String) :
    (m.lookup s).isSome = true ↔ s ∈ m.map Prod.fst := by
  induction m with
  | nil => simp
  | cons p rest ih =>
    obtain ⟨k, v⟩ := p
    by_cases h : s = k
    · subst h
      simp [List.lookup_cons]
    · have hb : (s == k) = false := by simpa using h
      simp [List.lookup_cons, hb, ih, h]

theorem lookup_map_value {β γ : Type} (f : β → γ) (m : List (String × β)) (s : String) :
    (m.map (fun p => (p.1, f p.2))).lookup s = (m.lookup s).map f := by
  induction m with
  | nil => simp
  | cons p rest ih =>
    obtain ⟨k, v⟩ := p
    by_cases h : s = k
    · subst h
      simp [List.lookup_cons]
    · have hb : (s == k) = false := by simpa using h
      simp [List.lookup_cons, hb, ih]

theorem lookup_map_key {β γ : Type} (g : String → γ) (tbl : List (String × β)) (s : String) :
    (tbl.map (fun p => (p.1, g p.1))).lookup s =
      if s ∈ tbl.map Prod.fst then some (g s) else none := by
  induction tbl with
  | nil => simp
  | cons p rest ih =>
    obtain ⟨k, v⟩ := p
    by_cases h : s = k
    · subst h
      simp [List.lookup_cons]
    · have hb : (s == k) = false := by simpa using h
      simp only [List.map_cons, List.lookup_cons, hb, ih, List.mem_cons, h, false_or]

theorem filterMap_getElem? {α β : Type} (f : α → Option β) (l : List α)
    (h : ∀ x ∈ l, ∃ y, f x = some y) (i : Nat) :
    (l.filterMap f)[i]? = (l[i]?).bind f := by
  induction l generalizing i with
  | nil => simp
  | cons a rest ih =>
    obtain ⟨y, hy⟩ := h a (by simp)
    have hrest : ∀ x ∈ rest, ∃ y, f x = some y := fun x hx => h x (by simp [hx])
    rw [List.filterMap_cons_some hy]
    cases i with
    | zero => simp [hy]
    | succ j => simpa using ih hrest j

/-- The query of section 4.3 answers for the shells of the sub-tables, in order. -/
theorem partialPhotoelectricAt_keys (interp : Interpolation) (values : List (String × List ℚ))
    (energy : ℚ) :
    ∀ (tbl : List (String × List ℚ)) (parts : List (String × ℚ)),
      partialPhotoelectricAt interp values energy tbl = .ok parts →
        parts.map Prod.fst = tbl.map Prod.fst := by
  intro tbl
  induction tbl with
  | nil =>
    intro parts h
    simp only [partialPhotoelectricAt] at h
    cases h
    rfl
  | cons p rest ih =>
    intro parts h
    obtain ⟨shell, energies⟩ := p
    simp only [partialPhotoelectricAt] at h
    split at h
    · cases h
    · split at h
      · cases h
      · rename_i r hr
        cases h
        simp [ih r hr]

/-- What a successful call of the scalar form has computed. -/
theorem vacancy_ok_inv (interp : Interpolation) (el : Element) (energy : ℚ)
    (m : List (String × ℚ))
    (h : el.getInitialPhotoelectricVacancyDistribution interp energy = .ok m) :
    ∃ total parts,
      el.getPhotoelectricMassAttenuationCoefficient interp energy = .ok total ∧
      el.getPartialPhotoelectricMassAttenuationCoefficients interp energy = .ok parts ∧
      total ≠ 0 ∧ parts ≠ [] ∧ m = parts.map (fun p => (p.1, p.2 / total)) := by
  simp only [Element.getInitialPhotoelectricVacancyDistribution] at h
  split at h
  · cases h
  · rename_i total ht
    split at h
    · cases h
    · rename_i parts hp
      split at h
      · cases h
      · rename_i hcond
        cases h
        exact ⟨total, parts, ht, hp, fun h0 => hcond (Or.inl h0), fun h0 => hcond (Or.inr h0), rfl⟩

/-- The shells of a successful call of the scalar form are those of the sub-tables. -/
theorem vacancy_keys (interp : Interpolation) (el : Element) (energy : ℚ)
    (m : List (String × ℚ))
    (h : el.getInitialPhotoelectricVacancyDistribution interp energy = .ok m) :
    m.map Prod.fst = el.muPartialPhotoelectricEnergy.map Prod.fst := by
  obtain ⟨total, parts, _, hp, _, _, rfl⟩ := vacancy_ok_inv interp el energy m h
  rw [← partialPhotoelectricAt_keys interp _ energy _ parts hp]
  simp [Function.comp_def]

/-- The rows of the vector form are the results of the scalar form, position by
position. -/
theorem vacancyRows_getElem? (interp : Interpolation) (el : Element) :
    ∀ (energies : List ℚ) (rows : List (List (String × ℚ))),
      vacancyRows interp el energies = .ok rows →
        ∀ (i : Nat) (energy : ℚ), energies[i]? = some energy →
          ∃ row, rows[i]? = some row ∧
            el.getInitialPhotoelectricVacancyDistribution interp energy = .ok row := by
  intro energies
  induction energies with
  | nil =>
    intro rows _ i energy hi
    simp at hi
  | cons e rest ih =>
    intro rows h i energy hi
    simp only [vacancyRows] at h
    split at h
    · cases h
    · rename_i row hrow
      split at h
      · cases h
      · rename_i rows1 hrows
        cases h
        cases i with
        | zero =>
          simp only [List.getElem?_cons_zero, Option.some.injEq] at hi
          subst hi
          exact ⟨row, by simp, hrow⟩
        | succ j =>
          simp only [List.getElem?_cons_succ] at hi
          obtain ⟨r, hr1, hr2⟩ := ih rows1 hrows j energy hi
          exact ⟨r, by simpa using hr1, hr2⟩

/-- Every row of the vector form is a result of the scalar form. -/
theorem vacancyRows_mem (interp : Interpolation) (el : Element) :
    ∀ (energies : List ℚ) (rows : List (List (String × ℚ))),
      vacancyRows interp el energies = .ok rows →
        ∀ row ∈ rows, ∃ energy,
          el.getInitialPhotoelectricVacancyDistribution interp energy = .ok row := by
  intro energies
  induction energies with
  | nil =>
    intro rows h row hrow
    simp only [vacancyRows] at h
    cases h
    simp at hrow
  | cons e rest ih =>
    intro rows h row hrow
    simp only [vacancyRows] at h
    split at h
    · cases h
    · rename_i row0 hrow0
      split at h
      · cases h
      · rename_i rows1 hrows
        cases h
        rcases List.mem_cons.1 hrow with h1 | h1
        · subst h1
          exact ⟨e, hrow0⟩
        · exact ih rows1 hrows row h1

/-- The rows exist as soon as the scalar form succeeds at every energy. -/
theorem vacancyRows_total (interp : Interpolation) (el : Element) :
    ∀ (energies : List ℚ),
      (∀ energy ∈ energies, ∃ m,
        el.getInitialPhotoelectricVacancyDistribution interp energy = .ok m) →
      ∃ rows, vacancyRows interp el energies = .ok rows := by
  intro energies
  induction energies with
  | nil => intro _; exact ⟨[], rfl⟩
  | cons e rest ih =>
    intro h
    obtain ⟨m, hm⟩ := h e (by simp)
    obtain ⟨rows, hrows⟩ := ih (fun x hx => h x (by simp [hx]))
    exact ⟨m :: rows, by simp [vacancyRows, hm, hrows]⟩

/-- Where no ratio is defined the scalar form reports an error: without a partial
photoelectric table, with a total photoelectric coefficient of zero, and outside
the span of the table. -/
theorem vacancy_distribution_failures :
    undecomposedElement.getInitialPhotoelectricVacancyDistribution sampleLookup 12 =
      .error .noPhotoelectricData ∧
    transparentElement.getInitialPhotoelectricVacancyDistribution sampleLookup 12 =
      .error .noPhotoelectricData ∧
    scenarioElement.getInitialPhotoelectricVacancyDistribution sampleLookup 30 =
      .error .outOfRange := by
  refine ⟨rfl, rfl, rfl⟩

/-- C2: at every energy, the map returned by the scalar form of
`getInitialPhotoelectricVacancyDistribution` has as keys exactly the shells of the
per-shell photoelectric data at that energy, in the same order, and as value for
each shell its partial coefficient divided by the total photoelectric coefficient;
and the scalar form returns a map exactly at the energies where the total
photoelectric coefficient is available and not zero and the per-shell query gives
data for at least one shell. -/
theorem vacancy_distribution_is_partial_over_total (interp : Interpolation) (el : Element)
    (energy : ℚ) :
    (∀ m, el.getInitialPhotoelectricVacancyDistribution interp energy = .ok m →
      ∃ total parts,
        el.getPhotoelectricMassAttenuationCoefficient interp energy = .ok total ∧
        el.getPartialPhotoelectricMassAttenuationCoefficients interp energy = .ok parts ∧
        m.map Prod.fst = parts.map Prod.fst ∧
        ∀ shell, m.lookup shell = (parts.lookup shell).map (fun v => v / total)) ∧
    ((∃ m, el.getInitialPhotoelectricVacancyDistribution interp energy = .ok m) ↔
      ∃ total parts,
        el.getPhotoelectricMassAttenuationCoefficient interp energy = .ok total ∧
        el.getPartialPhotoelectricMassAttenuationCoefficients interp energy = .ok parts ∧
        total ≠ 0 ∧ parts ≠ []) := by
  refine ⟨fun m h => ?_, ⟨?_, ?_⟩⟩
  · obtain ⟨total, parts, ht, hp, _, _, rfl⟩ := vacancy_ok_inv interp el energy m h
    refine ⟨total, parts, ht, hp, ?_, fun shell => ?_⟩
    · simp [Function.comp_def]
    · exact lookup_map_value (fun v => v / total) parts shell
  · rintro ⟨m, h⟩
    obtain ⟨total, parts, ht, hp, h0, hne, _⟩ := vacancy_ok_inv interp el energy m h
    exact ⟨total, parts, ht, hp, h0, hne⟩
  · rintro ⟨total, parts, ht, hp, h0, hne⟩
    exact ⟨parts.map (fun p => (p.1, p.2 / total)), by
      simp [Element.getInitialPhotoelectricVacancyDistribution, ht, hp, h0, hne]⟩

/-- Witness of C2: the scenario of section 8, total 10 and K partial 8 at 12 keV,
where the scalar form returns the single entry K with the value 8 / 10. -/
theorem vacancy_distribution_is_partial_over_total_witness :
    (∃ m, scenarioElement.getInitialPhotoelectricVacancyDistribution sampleLookup 12 =
      .ok m) ∧
    ∃ total parts,
      scenarioElement.getPhotoelectricMassAttenuationCoefficient sampleLookup 12 =
        .ok total ∧
      scenarioElement.getPartialPhotoelectricMassAttenuationCoefficients sampleLookup 12 =
        .ok parts ∧
      ([("K", 8 / 10)] : List (String × ℚ)).map Prod.fst = parts.map Prod.fst ∧
      ∀ shell, ([("K", 8 / 10)] : List (String × ℚ)).lookup shell =
        (parts.lookup shell).map (fun v => v / total) :=
  ⟨(vacancy_distribution_is_partial_over_total sampleLookup scenarioElement 12).2.2
      ⟨10, [("K", 8)], rfl, rfl, by decide, by decide⟩,
    (vacancy_distribution_is_partial_over_total sampleLookup scenarioElement 12).1
      [("K", 8 / 10)] rfl⟩

/-- C3: when the vector form returns, then for every position `i` of the list of
energies the scalar form returns at `energies[i]`, and for every shell the `i`-th
value of the vector form is the value of the scalar form; and the vector form
returns as soon as the scalar form returns at every energy of the list. -/
theorem vacancy_distribution_batch_scalar (interp : Interpolation) (el : Element)
    (energies : List ℚ) :
    ((∀ energy ∈ energies, ∃ m,
        el.getInitialPhotoelectricVacancyDistribution interp energy = .ok m) →
      ∃ b, el.getInitialPhotoelectricVacancyDistributionOfEnergies interp energies = .ok b) ∧
    (∀ b, el.getInitialPhotoelectricVacancyDistributionOfEnergies interp energies = .ok b →
      ∀ (i : Nat) (energy : ℚ), energies[i]? = some energy →
        ∃ m, el.getInitialPhotoelectricVacancyDistribution interp energy = .ok m ∧
          ∀ shell, (b.lookup shell).bind (fun values => values[i]?) = m.lookup shell) := by
  constructor
  · intro h
    obtain ⟨rows, hrows⟩ := vacancyRows_total interp el energies h
    refine ⟨el.muPartialPhotoelectricEnergy.map
      (fun p => (p.1, rows.filterMap (fun row => row.lookup p.1))), ?_⟩
    simp only [Element.getInitialPhotoelectricVacancyDistributionOfEnergies, hrows]
  · intro b hb i energy hi
    simp only [Element.getInitialPhotoelectricVacancyDistributionOfEnergies] at hb
    split at hb
    · cases hb
    · rename_i rows hrows
      cases hb
      obtain ⟨m, hm1, hm2⟩ := vacancyRows_getElem? interp el energies rows hrows i energy hi
      refine ⟨m, hm2, fun shell => ?_⟩
      rw [lookup_map_key (fun s => rows.filterMap (fun row => row.lookup s))]
      by_cases hs : shell ∈ el.muPartialPhotoelectricEnergy.map Prod.fst
      · have hall : ∀ row ∈ rows, ∃ y, row.lookup shell = some y := by
          intro row hrow
          obtain ⟨e1, he1⟩ := vacancyRows_mem interp el energies rows hrows row hrow
          have hk := vacancy_keys interp el e1 row he1
          have := (lookup_isSome_iff row shell).2 (by rw [hk]; exact hs)
          exact Option.isSome_iff_exists.1 this
        rw [if_pos hs]
        simp only [Option.some_bind]
        rw [filterMap_getElem? _ rows hall i, hm1]
        rfl
      · rw [if_neg hs]
        have hk := vacancy_keys interp el energy m hm2
        have hnone : (m.lookup shell).isSome ≠ true := by
          intro hsome
          rw [lookup_isSome_iff, hk] at hsome
          exact hs hsome
        cases hl : m.lookup shell with
        | none => rfl
        | some v => simp [hl] at hnone

/-- Witness of C3: the vector form on the scenario element at 12 and 20 keV. -/
theorem vacancy_distribution_batch_scalar_witness :
    ∃ m, scenarioElement.getInitialPhotoelectricVacancyDistribution sampleLookup 20 = .ok m ∧
      ∀ shell, (([("K", [8 / 10, 3 / 4])] : List (String × List ℚ)).lookup shell).bind
        (fun values => values[1]?) = m.lookup shell :=
  (vacancy_distribution_batch_scalar sampleLookup scenarioElement [12, 20]).2
    [("K", [8 / 10, 3 / 4])] rfl 1 20 rfl

end Fisx
